import Mathlib

/-!
Shallow embedding of the JUCE `URL` class (juce_core/io/network/juce_URL.h):
a URL value type with percent-encoding/decoding, parameter handling,
scheme/domain/subpath extraction, and a request builder / stream opener
model.  Text is modelled as lists of byte values (`List Nat`, each < 256
where it matters).  The repository ships only the class declaration
(juce_URL.h); the behaviour of each member is modelled from the
specification document and the doc comments of the header itself.
-/

/-- Converts a Lean string literal to the byte-list representation used
throughout this development (one `Nat` per character code). -/
def str (s : String) : List Nat := s.data.map Char.toNat

/-- Modelled from the spec: the unreserved character set of the
Percent-Codec, `A-Z a-z 0-9 - _ . ~`, which `addEscapeChars` never
escapes (juce_URL.cpp is absent from the sources; only its declaration
in juce_URL.h is present). -/
def isUnreserved (b : Nat) : Bool :=
  (65 ≤ b && b ≤ 90) || (97 ≤ b && b ≤ 122) || (48 ≤ b && b ≤ 57)
    || b == 45 || b == 95 || b == 46 || b == 126

/-- Modelled from the spec: a byte is left unescaped when it is
unreserved, or when it is `$` (36) or `,` (44) and the string is not
being encoded as a parameter (the header: parameter mode also encodes
`$` and `,`, which would otherwise be legal in a URL). -/
def isLegalUnescaped (isParameter : Bool) (b : Nat) : Bool :=
  isUnreserved b || (!isParameter && (b == 36 || b == 44))

/-- Uppercase hexadecimal digit character for a value below 16. -/
def hexDigitChar (n : Nat) : Nat :=
  if n < 10 then 48 + n else 55 + n

/-- The three-byte escape sequence `%XX` for one byte. -/
def escapeByte (b : Nat) : List Nat :=
  [37, hexDigitChar (b / 16 % 16), hexDigitChar (b % 16)]

/-- Modelled from the spec: how `URL::addEscapeChars` encodes a single
byte: space becomes `+` in parameter mode, legal bytes pass through,
everything else becomes `%XX`. -/
def encodeByte (isParameter : Bool) (b : Nat) : List Nat :=
  if isParameter && b == 32 then [43]
  else if isLegalUnescaped isParameter b then [b]
  else escapeByte b

/-- Modelled from the spec: `URL::addEscapeChars` (declaration at
juce_URL.h:276; the defining juce_URL.cpp is absent), byte by byte. -/
def addEscapeChars (isParameter : Bool) : List Nat → List Nat
  | [] => []
  | b :: rest => encodeByte isParameter b ++ addEscapeChars isParameter rest

/-- Value of one hexadecimal digit character, `none` when the byte is
not a hex digit. -/
def hexVal (b : Nat) : Option Nat :=
  if 48 ≤ b && b ≤ 57 then some (b - 48)
  else if 65 ≤ b && b ≤ 70 then some (b - 55)
  else if 97 ≤ b && b ≤ 102 then some (b - 87)
  else none

/-- Modelled from the spec: `URL::removeEscapeChars` (declaration at
juce_URL.h:288; the defining juce_URL.cpp is absent): `+` becomes a
space, a well-formed `%XX` becomes the corresponding byte, and a
malformed escape passes through unchanged; decoding never fails. -/
def removeEscapeChars : List Nat → List Nat
  | [] => []
  | 43 :: rest => 32 :: removeEscapeChars rest
  | 37 :: h1 :: h2 :: rest =>
    match hexVal h1, hexVal h2 with
    | some x, some y => (x * 16 + y) :: removeEscapeChars rest
    | _, _ => 37 :: removeEscapeChars (h1 :: h2 :: rest)
  | b :: rest => b :: removeEscapeChars rest

example : addEscapeChars true (str "two words") = str "two+words" := by decide
example : addEscapeChars false (str "a b") = str "a%20b" := by decide
example : removeEscapeChars (str "some+fish") = str "some fish" := by decide
example : removeEscapeChars (str "a%20b%zz") = str "a b%zz" := by decide

/-- An ordered association list of strings, the model of the JUCE
`StringPairArray` (the type of the `parameters`, `filesToUpload` and
`mimeTypes` members, juce_URL.h:296). -/
abbrev PairList := List (List Nat × List Nat)

/-- Modelled from the spec: `StringPairArray::set` (juce_StringPairArray
is absent from the sources): overwrites the value of an existing key in
place, otherwise appends the pair, preserving insertion order. -/
def setPair : PairList → List Nat → List Nat → PairList
  | [], k, v => [(k, v)]
  | (k2, v2) :: rest, k, v =>
    if k2 == k then (k2, v) :: rest else (k2, v2) :: setPair rest k v

/-- The JUCE `URL` value (private members at juce_URL.h:295-296):
the address string `url`, the raw POST body `postData`, and the three
ordered string-pair mappings. -/
structure URL where
  url : List Nat
  postData : List Nat
  parameters : PairList
  filesToUpload : PairList
  mimeTypes : PairList
deriving DecidableEq

/-- Splits a byte list at the first occurrence of `sep`, `none` when
`sep` does not occur. -/
def splitAtFirst (sep : Nat) : List Nat → Option (List Nat × List Nat)
  | [] => none
  | b :: rest =>
    if b == sep then some ([], rest)
    else match splitAtFirst sep rest with
      | none => none
      | some (k, v) => some (b :: k, v)

/-- Splits a byte list on every occurrence of `sep`. -/
def splitOnByte (sep : Nat) : List Nat → List (List Nat)
  | [] => [[]]
  | b :: rest =>
    if b == sep then [] :: splitOnByte sep rest
    else match splitOnByte sep rest with
      | [] => [[b]]
      | first :: others => (b :: first) :: others

/-- Modelled from the spec: one `key=value` piece of a query string is
added to the parameters mapping with both sides percent-decoded; a piece
with no `=` or with an empty key is skipped (the query parsing of the URL
constructor; juce_URL.cpp is absent). -/
def addQueryParam (ps : PairList) (piece : List Nat) : PairList :=
  match splitAtFirst 61 piece with
  | some (k, v) =>
    if k.isEmpty then ps
    else setPair ps (removeEscapeChars k) (removeEscapeChars v)
  | none => ps

/-- Modelled from the spec: the constructor `URL::URL (const String&)`
(declaration at juce_URL.h:55; juce_URL.cpp is absent): a query string
embedded in the constructor argument is parsed into the `parameters`
mapping (splitting on `&`, decoding escapes and `+`) and stripped from
the stored address. -/
def URL.ofString (s : List Nat) : URL :=
  match splitAtFirst 63 s with
  | none => ⟨s, [], [], [], []⟩
  | some (addr, query) =>
    ⟨addr, [], (splitOnByte 38 query).foldl addQueryParam [], [], []⟩

/-- `URL::withParameter` (juce_URL.h:113): a copy with one more GET/POST
parameter; modelled from the spec since juce_URL.cpp is absent. -/
def URL.withParameter (u : URL) (name value : List Nat) : URL :=
  { u with parameters := setPair u.parameters name value }

/-- `URL::withFileToUpload` (juce_URL.h:124): a copy with a file-upload
parameter and its MIME type added in lockstep; modelled from the spec
since juce_URL.cpp is absent. -/
def URL.withFileToUpload (u : URL) (name file mime : List Nat) : URL :=
  { u with filesToUpload := setPair u.filesToUpload name file,
           mimeTypes := setPair u.mimeTypes name mime }

/-- `URL::withPOSTData` (juce_URL.h:162): a copy whose raw POST body is
replaced by `d` (the header: "If the URL already contains some POST
data, this will replace it"); modelled from the spec since juce_URL.cpp
is absent. -/
def URL.withPOSTData (u : URL) (d : List Nat) : URL :=
  { u with postData := d }

/-- `URL::getPostData` (juce_URL.h:166, defined inline in the header):
returns the `postData` member. -/
def URL.getPostData (u : URL) : List Nat := u.postData

/-- `URL::getParameters` (juce_URL.h:137): returns the `parameters`
member. -/
def URL.getParameters (u : URL) : PairList := u.parameters

/-- `URL::getFilesToUpload` (juce_URL.h:144): returns the
`filesToUpload` member. -/
def URL.getFilesToUpload (u : URL) : PairList := u.filesToUpload

/-- `URL::getMimeTypesOfUploadFiles` (juce_URL.h:148): returns the
`mimeTypes` member. -/
def URL.getMimeTypesOfUploadFiles (u : URL) : PairList := u.mimeTypes

/-- Modelled from the spec: the serialized parameter suffix, each
`key=encode(value, true)` pair joined by `&` in insertion order (the
"mangled parameters" used by toString and the urlencoded POST body;
juce_URL.cpp is absent). -/
def mangledParameters : PairList → List Nat
  | [] => []
  | [(k, v)] => k ++ 61 :: addEscapeChars true v
  | (k, v) :: rest => k ++ 61 :: addEscapeChars true v ++ 38 :: mangledParameters rest

/-- Modelled from the spec: `URL::toString` (declaration at
juce_URL.h:73; juce_URL.cpp is absent): the address as-is when
`includeGetParameters` is false or no parameters are present, otherwise
the address followed by `?` (or `&` when the address already contains a
`?`) and the mangled parameters. -/
def URL.toString (u : URL) (includeGetParameters : Bool) : List Nat :=
  if includeGetParameters && !u.parameters.isEmpty then
    u.url ++ (if u.url.contains 63 then [38] else [63]) ++ mangledParameters u.parameters
  else u.url

example : (URL.ofString (str "www.fish.com?type=haddock&amount=some+fish")).getParameters
    = [(str "type", str "haddock"), (str "amount", str "some fish")] := by decide
example : ((URL.ofString (str "http://x.com")).withParameter (str "a") (str "1")
    |>.withParameter (str "b") (str "two words")).toString true
    = str "http://x.com?a=1&b=two+words" := by decide

/-- Modelled from the spec: the part of the address after `scheme://`,
or the whole address when no `://` is present (shared helper of the
grammar accessors; juce_URL.cpp is absent). -/
def afterScheme (s : List Nat) : List Nat :=
  match splitAtFirst 58 s with
  | some (_, 47 :: 47 :: rest) => rest
  | _ => s

/-- Takes bytes up to the first `/` or `?` (the extent of the domain). -/
def takeUntilDomainEnd : List Nat → List Nat
  | [] => []
  | b :: rest => if b == 47 || b == 63 then [] else b :: takeUntilDomainEnd rest

/-- Drops bytes up to the first `/` or `?` (past the domain). -/
def dropDomain : List Nat → List Nat
  | [] => []
  | b :: rest => if b == 47 || b == 63 then b :: rest else dropDomain rest

/-- Takes bytes up to the first `?` (strips a trailing query). -/
def takeUntilQuery : List Nat → List Nat
  | [] => []
  | b :: rest => if b == 63 then [] else b :: takeUntilQuery rest

/-- Modelled from the spec: `URL::getScheme` (declaration at
juce_URL.h:95; juce_URL.cpp is absent): the text before the first `:`
when it is followed by `//`, without the colon, else empty. -/
def URL.getScheme (u : URL) : List Nat :=
  match splitAtFirst 58 u.url with
  | some (before, 47 :: 47 :: _) => before
  | _ => []

/-- Modelled from the spec: `URL::getDomain` (declaration at
juce_URL.h:82; juce_URL.cpp is absent): the text after `scheme://` up
to the next `/`, `?` or end of string. -/
def URL.getDomain (u : URL) : List Nat :=
  takeUntilDomainEnd (afterScheme u.url)

/-- Modelled from the spec: `URL::getSubPath` (declaration at
juce_URL.h:88; juce_URL.cpp is absent): the text after the domain,
excluding its leading `/` and any trailing `?query`. -/
def URL.getSubPath (u : URL) : List Nat :=
  match dropDomain (afterScheme u.url) with
  | 47 :: rest => takeUntilQuery rest
  | other => takeUntilQuery other

/-- Modelled from the spec: `URL::withNewSubPath` (declaration at
juce_URL.h:102; juce_URL.cpp is absent): keeps everything up to the end
of the domain, splices in the new path after a `/`, and leaves the
parameter mappings and POST data untouched. -/
def URL.withNewSubPath (u : URL) (newPath : List Nat) : URL :=
  let rest := afterScheme u.url
  { u with url := u.url.take (u.url.length - rest.length)
      ++ takeUntilDomainEnd rest ++ 47 :: newPath }

example : (URL.ofString (str "http://www.xyz.com/foobar")).getScheme = str "http" := by decide
example : (URL.ofString (str "http://www.xyz.com/foobar")).getDomain = str "www.xyz.com" := by decide
example : (URL.ofString (str "http://www.xyz.com/foobar")).getSubPath = str "foobar" := by decide
example : ((URL.ofString (str "http://x.com/foo?x=1")).withNewSubPath (str "bar")).toString true
    = str "http://x.com/bar?x=1" := by decide

/-- The three terminal request encodings of the Request Builder
(spec section 4.3). -/
inductive Encoding where
  | get
  | urlencodedPost
  | multipartPost
deriving DecidableEq

/-- Modelled from the spec: the encoding decision of the Request Builder
inside `URL::createInputStream` (declaration at juce_URL.h:213;
juce_URL.cpp is absent): GET when `usePostCommand` is false, multipart
POST when any upload file is present, urlencoded POST otherwise. -/
def chooseEncoding (usePostCommand : Bool) (u : URL) : Encoding :=
  if !usePostCommand then .get
  else if !u.filesToUpload.isEmpty then .multipartPost
  else .urlencodedPost

/-- The outcome of opening a stream: the response stream when the
request succeeded (`none` models a null `InputStream*`), and how many
body bytes were transmitted. -/
structure SendResult where
  stream : Option (List Nat)
  bytesSent : Nat
deriving DecidableEq

/-- Modelled from the spec: body transmission inside
`URL::createInputStream` (juce_URL.cpp is absent): before each chunk the
progress callback is invoked with `(bytesSentSoFar, totalBytes)`; a
`false` return aborts with no stream and no further bytes sent. -/
def transmitBody (cb : Nat → Nat → Bool) (total : Nat) (response : List Nat) :
    List (List Nat) → Nat → SendResult
  | [], sent => ⟨some response, sent⟩
  | chunk :: rest, sent =>
    if cb sent total then transmitBody cb total response rest (sent + chunk.length)
    else ⟨none, sent⟩

/-- Modelled from the spec: `URL::createInputStream` (declaration at
juce_URL.h:213; juce_URL.cpp is absent), abstracting the HTTP transport
collaborator: the POST body — already built by the Request Builder and
chunked for transmission — is sent under the progress callback, and the
response stream of the transport is returned; a GET sends no body, so its
callback is never consulted. -/
def URL.createInputStream (u : URL) (usePostCommand : Bool)
    (progressCallback : Nat → Nat → Bool) (bodyChunks : List (List Nat))
    (response : List Nat) : SendResult :=
  match chooseEncoding usePostCommand u with
  | .get => ⟨some response, 0⟩
  | .urlencodedPost =>
    transmitBody progressCallback ((bodyChunks.map List.length).sum) response bodyChunks 0
  | .multipartPost =>
    transmitBody progressCallback ((bodyChunks.map List.length).sum) response bodyChunks 0

/-! ### Helper lemmas -/

/-- `setPair` never returns the empty mapping. -/
theorem setPair_ne_nil (ps : PairList) (k v : List Nat) : setPair ps k v ≠ [] := by
  cases ps with
  | nil => simp [setPair]
  | cons p rest =>
    obtain ⟨k2, v2⟩ := p
    simp only [setPair]
    split <;> simp

/-- `setPair` never returns a mapping reported empty by `isEmpty`. -/
theorem setPair_isEmpty (ps : PairList) (k v : List Nat) :
    (setPair ps k v).isEmpty = false := by
  cases h : setPair ps k v with
  | nil => exact absurd h (setPair_ne_nil ps k v)
  | cons p rest => rfl

/-- Decoding a hex digit character produced by `hexDigitChar` recovers
the digit value. -/
theorem hexVal_hexDigitChar : ∀ x < 16, hexVal (hexDigitChar x) = some x := by decide

/-- A byte that `addEscapeChars` leaves unescaped in non-parameter mode
is neither `%` (37) nor `+` (43). -/
theorem legal_unescaped_ne (b : Nat) (h : isLegalUnescaped false b = true) :
    b ≠ 37 ∧ b ≠ 43 := by
  simp [isLegalUnescaped, isUnreserved] at h
  omega

/-- Decoding a byte that is neither `+` nor `%` passes it through. -/
theorem removeEscape_cons_other (b : Nat) (h43 : b ≠ 43) (h37 : b ≠ 37) (rest : List Nat) :
    removeEscapeChars (b :: rest) = b :: removeEscapeChars rest := by
  rw [removeEscapeChars.eq_def]
  split <;> simp_all

/-- Decoding `+` yields a space. -/
theorem removeEscape_plus (rest : List Nat) :
    removeEscapeChars (43 :: rest) = 32 :: removeEscapeChars rest := rfl

/-- Decoding a well-formed `%XX` escape yields the encoded byte. -/
theorem removeEscape_wellformed (h1 h2 x y : Nat) (rest : List Nat)
    (hx : hexVal h1 = some x) (hy : hexVal h2 = some y) :
    removeEscapeChars (37 :: h1 :: h2 :: rest) = (x * 16 + y) :: removeEscapeChars rest := by
  rw [removeEscapeChars.eq_def]
  simp [hx, hy]

/-- Decoding a malformed `%` escape passes the `%` through unchanged. -/
theorem removeEscape_malformed (h1 h2 : Nat) (rest : List Nat)
    (hmal : hexVal h1 = none ∨ hexVal h2 = none) :
    removeEscapeChars (37 :: h1 :: h2 :: rest)
      = 37 :: removeEscapeChars (h1 :: h2 :: rest) := by
  rw [removeEscapeChars.eq_def]
  rcases hmal with h | h <;> simp [h]

/-- Decoding the non-parameter-mode encoding of one byte below 256
recovers that byte and continues with the remainder. -/
theorem removeEscape_encodeByte (b : Nat) (hb : b < 256) (rest : List Nat) :
    removeEscapeChars (encodeByte false b ++ rest) = b :: removeEscapeChars rest := by
  by_cases h : isLegalUnescaped false b = true
  · obtain ⟨h37, h43⟩ := legal_unescaped_ne b h
    simp only [encodeByte, Bool.false_and, Bool.false_eq_true, if_false, h, if_true,
      List.cons_append, List.nil_append]
    exact removeEscape_cons_other b h43 h37 rest
  · have hx : hexVal (hexDigitChar (b / 16 % 16)) = some (b / 16 % 16) :=
      hexVal_hexDigitChar _ (by omega)
    have hy : hexVal (hexDigitChar (b % 16)) = some (b % 16) :=
      hexVal_hexDigitChar _ (by omega)
    simp only [encodeByte, Bool.false_and, Bool.false_eq_true, if_false, h, escapeByte,
      List.cons_append, List.nil_append]
    rw [removeEscape_wellformed _ _ _ _ _ hx hy]
    congr 1
    omega

/-! ### Claim theorems -/

/-- C1: when a stream is opened with `usePostCommand` true, the Request
Builder chooses multipart POST encoding if and only if the
`filesToUpload` mapping is non-empty; with it empty it chooses
urlencoded POST regardless of the plain parameters, and adding any file
via `withFileToUpload` forces multipart. -/
theorem multipart_iff_uploadFiles (u : URL) :
    (chooseEncoding true u = Encoding.multipartPost ↔ u.getFilesToUpload ≠ []) ∧
    (u.getFilesToUpload = [] → chooseEncoding true u = Encoding.urlencodedPost) ∧
    (∀ n f m, chooseEncoding true (u.withFileToUpload n f m) = Encoding.multipartPost) := by
  refine ⟨?_, ?_, ?_⟩
  · cases hu : u.filesToUpload <;>
      simp [chooseEncoding, URL.getFilesToUpload, hu]
  · intro h
    simp only [URL.getFilesToUpload] at h
    simp [chooseEncoding, h]
  · intro n f m
    simp [chooseEncoding, URL.withFileToUpload, setPair_isEmpty]

/-- C1 witness: on a URL with no upload files the builder picks
urlencoded POST, and after one `withFileToUpload` it picks multipart. -/
theorem multipart_iff_uploadFiles_witness :
    chooseEncoding true (URL.ofString (str "http://x.com")) = Encoding.urlencodedPost ∧
    chooseEncoding true ((URL.ofString (str "http://x.com")).withFileToUpload
      (str "f") (str "a.txt") (str "text/plain")) = Encoding.multipartPost :=
  ⟨(multipart_iff_uploadFiles (URL.ofString (str "http://x.com"))).2.1 (by decide),
   (multipart_iff_uploadFiles (URL.ofString (str "http://x.com"))).2.2
     (str "f") (str "a.txt") (str "text/plain")⟩

/-- C2: each with-operation is a pure copy: the derived value agrees
with the receiver on every component the operation does not target, and
the receiver itself — being an immutable value — keeps its address,
parameters, upload files, MIME types, POST body and serialized string;
derived values share no mutable state with the base. -/
theorem with_ops_preserve_components (u : URL) (k v n f m d p : List Nat) :
    ((u.withParameter k v).url = u.url ∧
     (u.withParameter k v).postData = u.postData ∧
     (u.withParameter k v).filesToUpload = u.filesToUpload ∧
     (u.withParameter k v).mimeTypes = u.mimeTypes) ∧
    ((u.withFileToUpload n f m).url = u.url ∧
     (u.withFileToUpload n f m).postData = u.postData ∧
     (u.withFileToUpload n f m).parameters = u.parameters) ∧
    ((u.withPOSTData d).url = u.url ∧
     (u.withPOSTData d).parameters = u.parameters ∧
     (u.withPOSTData d).filesToUpload = u.filesToUpload ∧
     (u.withPOSTData d).mimeTypes = u.mimeTypes ∧
     (∀ b, (u.withPOSTData d).toString b = u.toString b)) ∧
    ((u.withNewSubPath p).parameters = u.parameters ∧
     (u.withNewSubPath p).postData = u.postData ∧
     (u.withNewSubPath p).filesToUpload = u.filesToUpload ∧
     (u.withNewSubPath p).mimeTypes = u.mimeTypes) :=
  ⟨⟨rfl, rfl, rfl, rfl⟩, ⟨rfl, rfl, rfl⟩,
   ⟨rfl, rfl, rfl, rfl, fun _ => rfl⟩, ⟨rfl, rfl, rfl, rfl⟩⟩

/-- C3: decoding inverts non-parameter-mode encoding on every byte
string free of literal `+` (43): `removeEscapeChars` after
`addEscapeChars false` is the identity there. -/
theorem decode_encode_roundtrip (s : List Nat) (hbytes : ∀ b ∈ s, b < 256)
    (hplus : 43 ∉ s) :
    removeEscapeChars (addEscapeChars false s) = s := by
  induction s with
  | nil => rfl
  | cons b rest ih =>
    have hb : b < 256 := hbytes b (by simp)
    rw [addEscapeChars, removeEscape_encodeByte b hb,
      ih (fun c hc => hbytes c (by simp [hc])) (fun hc => hplus (by simp [hc]))]

/-- C3 witness: the round trip on the concrete `+`-free string
`a b%c~` is the identity. -/
theorem decode_encode_roundtrip_witness :
    removeEscapeChars (addEscapeChars false (str "a b%c~")) = str "a b%c~" :=
  decode_encode_roundtrip (str "a b%c~") (by decide) (by decide)

/-- C4: `removeEscapeChars` is total and never fails: `+` becomes a
space, a well-formed `%XX` becomes the encoded byte, and a malformed
escape — `%` followed by a non-hex digit or by fewer than two bytes —
passes through unchanged and decoding continues. -/
theorem removeEscapeChars_total_spec :
    (∀ rest, removeEscapeChars (43 :: rest) = 32 :: removeEscapeChars rest) ∧
    (∀ h1 h2 x y rest, hexVal h1 = some x → hexVal h2 = some y →
      removeEscapeChars (37 :: h1 :: h2 :: rest) = (x * 16 + y) :: removeEscapeChars rest) ∧
    (∀ h1 h2 rest, hexVal h1 = none ∨ hexVal h2 = none →
      removeEscapeChars (37 :: h1 :: h2 :: rest)
        = 37 :: removeEscapeChars (h1 :: h2 :: rest)) ∧
    (∀ rest, rest.length < 2 →
      removeEscapeChars (37 :: rest) = 37 :: removeEscapeChars rest) ∧
    (∀ b rest, b ≠ 43 → b ≠ 37 →
      removeEscapeChars (b :: rest) = b :: removeEscapeChars rest) := by
  refine ⟨removeEscape_plus, ?_, removeEscape_malformed, ?_, ?_⟩
  · intro h1 h2 x y rest hx hy
    exact removeEscape_wellformed h1 h2 x y rest hx hy
  · intro rest hlen
    match rest with
    | [] => rfl
    | [h1] => rfl
    | h1 :: h2 :: rest2 => exact absurd hlen (by simp)
  · intro b rest h43 h37
    exact removeEscape_cons_other b h43 h37 rest

/-- C4 witness: decoding the concrete malformed escape `%zz` passes it
through unchanged. -/
theorem removeEscapeChars_total_spec_witness :
    removeEscapeChars [37, 122, 122] = [37, 122, 122] :=
  (removeEscapeChars_total_spec.2.2.1 122 122 [] (Or.inl (by decide))).trans (by decide)

/-- C5: `toString true` returns the address unchanged when the
parameters mapping is empty, and otherwise the address followed by `?`
(or `&` when the address already contains a `?`) and the
`key=encode(value, true)` pairs joined by `&` in insertion order; the
concrete chain over base `http://x.com` serializes to
`http://x.com?a=1&b=two+words`, and `toString false` drops the added
parameters. -/
theorem toString_spec :
    (∀ u : URL, u.toString false = u.url) ∧
    (∀ u : URL, u.parameters = [] → u.toString true = u.url) ∧
    (∀ u : URL, u.parameters ≠ [] →
      u.toString true = u.url ++ (if u.url.contains 63 then [38] else [63])
        ++ mangledParameters u.parameters) ∧
    ((URL.ofString (str "http://x.com")).withParameter (str "a") (str "1")
      |>.withParameter (str "b") (str "two words")).toString true
      = str "http://x.com?a=1&b=two+words" ∧
    ((URL.ofString (str "http://x.com")).withParameter (str "a") (str "1")
      |>.withParameter (str "b") (str "two words")).toString false
      = str "http://x.com" := by
  refine ⟨fun u => rfl, ?_, ?_, by decide, by decide⟩
  · intro u h
    simp [URL.toString, h]
  · intro u h
    cases hp : u.parameters with
    | nil => exact absurd hp h
    | cons q qs => simp [URL.toString, hp]

/-- C5 witness: on a URL with no parameters, `toString true` returns
the address unchanged. -/
theorem toString_spec_witness :
    (URL.ofString (str "http://x.com")).toString true = str "http://x.com" :=
  toString_spec.2.1 (URL.ofString (str "http://x.com")) (by decide)

/-- C6: constructing from `http://x.com/foo?x=1`, replacing the
sub-path with `bar` and serializing with parameters yields exactly
`http://x.com/bar?x=1`; the scheme and domain are kept and the new
sub-path is in place. -/
theorem withNewSubPath_example :
    ((URL.ofString (str "http://x.com/foo?x=1")).withNewSubPath (str "bar")).toString true
      = str "http://x.com/bar?x=1" ∧
    ((URL.ofString (str "http://x.com/foo?x=1")).withNewSubPath (str "bar")).getScheme
      = str "http" ∧
    ((URL.ofString (str "http://x.com/foo?x=1")).withNewSubPath (str "bar")).getDomain
      = str "x.com" ∧
    ((URL.ofString (str "http://x.com/foo?x=1")).withNewSubPath (str "bar")).getSubPath
      = str "bar" := by decide

/-- C7: for the URL constructed from `http://www.xyz.com/foobar`,
`getScheme` returns `http` without the colon, `getDomain` returns
`www.xyz.com`, and `getSubPath` returns `foobar`. -/
theorem scheme_domain_subpath_example :
    (URL.ofString (str "http://www.xyz.com/foobar")).getScheme = str "http" ∧
    (URL.ofString (str "http://www.xyz.com/foobar")).getDomain = str "www.xyz.com" ∧
    (URL.ofString (str "http://www.xyz.com/foobar")).getSubPath = str "foobar" := by decide

/-- C8: if the progress callback returns false on its first invocation
— at zero bytes sent, before any chunk is transmitted — then
`createInputStream` in POST mode returns no stream and transmits no
body bytes. -/
theorem createInputStream_cancelled (u : URL) (cb : Nat → Nat → Bool)
    (chunks : List (List Nat)) (response : List Nat)
    (hne : chunks ≠ [])
    (hcb : cb 0 ((chunks.map List.length).sum) = false) :
    (u.createInputStream true cb chunks response).stream = none ∧
    (u.createInputStream true cb chunks response).bytesSent = 0 := by
  obtain ⟨c, rest, rfl⟩ := List.exists_cons_of_ne_nil hne
  have h1 : ∀ resp tot, cb 0 tot = false →
      transmitBody cb tot resp (c :: rest) 0 = ⟨none, 0⟩ := by
    intro resp tot h
    simp [transmitBody, h]
  have h2 : transmitBody cb ((List.map List.length (c :: rest)).sum) response (c :: rest) 0
      = ⟨none, 0⟩ := h1 response _ hcb
  simp only [List.map_cons, List.sum_cons] at h2
  constructor <;>
    cases hfe : u.filesToUpload.isEmpty <;>
      simp [URL.createInputStream, chooseEncoding, hfe, h2]

/-- C8 witness: a callback that immediately returns false yields no
stream and zero transmitted bytes on a concrete POST request. -/
theorem createInputStream_cancelled_witness :
    ((URL.ofString (str "http://x.com")).createInputStream true (fun _ _ => false)
      [str "a=1"] (str "ok")).stream = none ∧
    ((URL.ofString (str "http://x.com")).createInputStream true (fun _ _ => false)
      [str "a=1"] (str "ok")).bytesSent = 0 :=
  createInputStream_cancelled (URL.ofString (str "http://x.com")) (fun _ _ => false)
    [str "a=1"] (str "ok") (by decide) rfl

/-- C9: `withPOSTData` replaces any previously set POST data rather
than appending — two successive calls leave exactly the second body —
and it changes no other component of the URL value. -/
theorem withPOSTData_replaces (u : URL) (d1 d2 : List Nat) :
    ((u.withPOSTData d1).withPOSTData d2).getPostData = d2 ∧
    (u.withPOSTData d1).url = u.url ∧
    (u.withPOSTData d1).parameters = u.parameters ∧
    (u.withPOSTData d1).filesToUpload = u.filesToUpload ∧
    (u.withPOSTData d1).mimeTypes = u.mimeTypes :=
  ⟨rfl, rfl, rfl, rfl, rfl⟩

/-- C10: constructing a URL from a string with an embedded query parses
the query into the parameters mapping with escapes and `+` decoded: for
`www.fish.com?type=haddock&amount=some+fish` the mapping holds exactly
`type = haddock` followed by `amount = some fish`. -/
theorem constructor_parses_query :
    (URL.ofString (str "www.fish.com?type=haddock&amount=some+fish")).getParameters
      = [(str "type", str "haddock"), (str "amount", str "some fish")] := by decide
